import Mathlib

/-!
Verification development for the off-chain quote engine of the
mercurial dynamic AMM TypeScript client (`src/ts-client/src/amm/index.ts`).

Integer amounts (BN.js big numbers) are embedded as `Nat`: every quantity
handled by the quote paths modelled here is a non-negative integer, `BN.div`
is truncating division, and `BN.div` raises an assertion failure on a zero
divisor, which is embedded as the `Except` error `AmmError.divisionByZero`.
The curve module (`computeD`, `computeInAmount`, `computeImbalanceDeposit`,
`computeWithdrawOne`), the util module's `calculateSwapQuote` and
`computeActualDepositAmount`, the buffer constant, and the external vault
SDK's withdrawable amounts are not part of the provided sources; they enter
the embedding either as universally quantified parameters (collected in
`CurveOps` / `Ctx`) or, where a claim depends on their value, as definitions
modelled from the specification text (marked in their doc comments).
-/

namespace MercurialAmm

/-- Errors raised by the quote engine: `invalidInput` for the two deposit
precondition failures, `invalidMint` for a mint outside the pool's pair,
`divisionByZero` for a BN.js division whose divisor is zero. -/
inductive AmmError where
  | invalidInput
  | invalidMint
  | divisionByZero
deriving DecidableEq, Repr

/-- BN.js truncating division: `a.div(b)` asserts that the divisor is
non-zero and otherwise returns the floor quotient of non-negative values. -/
def bnDiv (a b : Nat) : Except AmmError Nat :=
  if b = 0 then .error .divisionByZero else .ok (a / b)

/-- BN.js `divRound`: division rounded to the nearest integer.  For
non-negative operands BN.js rounds down when the remainder is below half the
divisor, or equals half of an odd divisor, and rounds up otherwise. -/
def divRound (a n : Nat) : Nat :=
  if a % n = 0 then a / n
  else if a % n < n / 2 ∨ (n % 2 = 1 ∧ a % n = n / 2) then a / n
  else a / n + 1

/-- Trade direction of the swap curve. -/
inductive TradeDirection where
  | AToB
  | BToA
deriving DecidableEq, Repr

/-- The two tokens of a pool; `depegToken` reports one of them or none. -/
inductive WhichToken where
  | A
  | B
deriving DecidableEq, Repr

/-- Fee schedule of a pool (`poolState.fees`). -/
structure Fees where
  tradeFeeNumerator : Nat
  tradeFeeDenominator : Nat
  ownerTradeFeeNumerator : Nat
  ownerTradeFeeDenominator : Nat
deriving DecidableEq, Repr

/-- The pool-state fields the quote paths read: the curve tag, the stable
curve's decimal multipliers, the fee schedule and the two token mints
(mints are embedded as bare `Nat` identifiers; the token infos passed at
construction are checked there to carry the same mints as the pool state). -/
structure PoolConfig where
  isStablePool : Bool
  tokenAMultiplier : Nat
  tokenBMultiplier : Nat
  fees : Fees
  tokenAMint : Nat
  tokenBMint : Nat
deriving DecidableEq, Repr

/-- The reserve snapshot (`this.accountsInfo`). -/
structure AccountsInfo where
  currentTime : Nat
  poolVaultALp : Nat
  poolVaultBLp : Nat
  vaultALpSupply : Nat
  vaultBLpSupply : Nat
  vaultAReserve : Nat
  vaultBReserve : Nat
  poolLpSupply : Nat
deriving DecidableEq, Repr

/-- The pool token amounts of `this.poolInfo` (the fields the quote paths
read; derived once per snapshot by the aggregator). -/
structure PoolInfo where
  tokenAAmount : Nat
  tokenBAmount : Nat
deriving DecidableEq, Repr

/-- The polymorphic swap-curve operations consumed by the quote engine.
Their implementations live in the curve module, which is not part of the
provided sources, so they are universally quantified parameters here. -/
structure CurveOps where
  computeD : Nat → Nat → Nat
  computeInAmount : Nat → Nat → Nat → TradeDirection → Nat
  computeImbalanceDeposit : Nat → Nat → Nat → Nat → Nat → Fees → Nat
  computeWithdrawOne : Nat → Nat → Nat → Nat → Fees → TradeDirection → Nat

/-- Remaining external inputs of the quote paths: the curve operations, the
util module's `computeActualDepositAmount`, the deposit buffer constant
`UNLOCK_AMOUNT_BUFFER`, and the two vault withdrawable amounts, which the
source obtains from the vault SDK's `calculateWithdrawableAmount` at the
snapshot's current time. -/
structure Ctx where
  curve : CurveOps
  computeActualDepositAmount : Nat → Nat → Nat → Nat → Nat → Nat
  unlockAmountBuffer : Nat
  vaultAWithdrawableAmount : Nat
  vaultBWithdrawableAmount : Nat

/-- Deposit quote record. -/
structure DepositQuote where
  poolTokenAmountOut : Nat
  minPoolTokenAmountOut : Nat
  tokenAInAmount : Nat
  tokenBInAmount : Nat
deriving DecidableEq, Repr

/-- Withdraw quote record. -/
structure WithdrawQuote where
  poolTokenAmountIn : Nat
  tokenAOutAmount : Nat
  tokenBOutAmount : Nat
  minTokenAOutAmount : Nat
  minTokenBOutAmount : Nat
deriving DecidableEq, Repr

/-- Result fields of the util module's `calculateSwapQuote`. -/
structure SwapQuoteOut where
  amountOut : Nat
  fee : Nat
  priceImpact : Nat
deriving DecidableEq, Repr

/-- Swap quote record returned by `getSwapQuote`. -/
structure SwapQuote where
  swapInAmount : Nat
  swapOutAmount : Nat
  minSwapOutAmount : Nat
  fee : Nat
  priceImpact : Nat
deriving DecidableEq, Repr

/-- Modelled from the spec: `getMinAmountWithSlippage` lives in the util
module, which is not part of the provided sources; the spec states
`minOutput = outputAmount * (10000 - slippageBps) / 10000` exactly, in
integer arithmetic. -/
def getMinAmountWithSlippage (amount slippageBps : Nat) : Nat :=
  amount * (10000 - slippageBps) / 10000

/-- Modelled from the spec: `getMaxAmountWithSlippage` lives in the util
module, which is not part of the provided sources; it is the symmetric
slippage-adjusted maximum, `amount * (10000 + slippageBps) / 10000`. -/
def getMaxAmountWithSlippage (amount slippageBps : Nat) : Nat :=
  amount * (10000 + slippageBps) / 10000

/-- Embedding of `AmmImpl.getShareByAmount`: converts an underlying amount to a share
amount; returns 0 when the divisor `tokenAmount` is zero, otherwise divides
`amount * lpSupply` by `tokenAmount`, with `divRound` when `roundUp`. -/
def getShareByAmount (amount tokenAmount lpSupply : Nat) (roundUp : Bool) : Nat :=
  if tokenAmount = 0 then 0
  else if roundUp then divRound (amount * lpSupply) tokenAmount
  else amount * lpSupply / tokenAmount

/-- Embedding of `AmmImpl.getAmountByShare`: converts a share amount to an underlying
amount; returns 0 when the divisor `lpSupply` is zero, otherwise divides
`amount * tokenAmount` by `lpSupply`, with `divRound` when `roundUp`. -/
def getAmountByShare (amount tokenAmount lpSupply : Nat) (roundUp : Bool) : Nat :=
  if lpSupply = 0 then 0
  else if roundUp then divRound (amount * tokenAmount) lpSupply
  else amount * tokenAmount / lpSupply

/-- Embedding of `AmmImpl.computeActualInAmount`: derives the actual token amounts a
balanced constant-product deposit must supply, with the round-up flag set on
all four share conversions. -/
def computeActualInAmount (poolTokenAmount poolLpSupply poolVaultALp poolVaultBLp
    vaultALpSupply vaultBLpSupply vaultAWithdrawableAmount vaultBWithdrawableAmount : Nat) :
    Nat × Nat :=
  let aVaultLpMinted := getShareByAmount poolTokenAmount poolLpSupply poolVaultALp true
  let bVaultLpMinted := getShareByAmount poolTokenAmount poolLpSupply poolVaultBLp true
  let actualTokenAInAmount := getAmountByShare aVaultLpMinted vaultAWithdrawableAmount vaultALpSupply true
  let actualTokenBInAmount := getAmountByShare bVaultLpMinted vaultBWithdrawableAmount vaultBLpSupply true
  (actualTokenAInAmount, actualTokenBInAmount)

/-- Embedding of `AmmImpl.calculateAdminTradingFee`: `amount * ownerTradeFeeNumerator /
ownerTradeFeeDenominator`, a raw BN division. -/
def calculateAdminTradingFee (fees : Fees) (amount : Nat) : Except AmmError Nat :=
  bnDiv (amount * fees.ownerTradeFeeNumerator) fees.ownerTradeFeeDenominator

/-- Embedding of `AmmImpl.calculateTradingFee`: `amount * tradeFeeNumerator /
tradeFeeDenominator`, a raw BN division. -/
def calculateTradingFee (fees : Fees) (amount : Nat) : Except AmmError Nat :=
  bnDiv (amount * fees.tradeFeeNumerator) fees.tradeFeeDenominator

/-- Embedding of `AmmImpl.depegToken`: returns the token whose concentration marks it as
depegged, or none.  Non-stable pools return none; on a stable pool the
multiplier-normalized total balance is computed, a zero total returns none,
and otherwise token A (then token B) is tested with
`tokenAmount * 2 / total * 100 > 95` on the raw (un-normalized) amount. -/
def depegToken (p : PoolConfig) (info : PoolInfo) : Option WhichToken :=
  if p.isStablePool = false then none
  else if info.tokenAAmount * p.tokenAMultiplier + info.tokenBAmount * p.tokenBMultiplier = 0 then
    none
  else if info.tokenAAmount * 2
      / (info.tokenAAmount * p.tokenAMultiplier + info.tokenBAmount * p.tokenBMultiplier)
      * 100 > 95 then
    some WhichToken.A
  else if info.tokenBAmount * 2
      / (info.tokenAAmount * p.tokenAMultiplier + info.tokenBAmount * p.tokenBMultiplier)
      * 100 > 95 then
    some WhichToken.B
  else none

/-- Embedding of `AmmImpl.getSwapQuote`: delegates the curve output to the util module's
`calculateSwapQuote` (not part of the provided sources, hence a parameter)
and attaches the slippage-adjusted minimum out amount. -/
def getSwapQuote (calculateSwapQuote : Nat → Nat → SwapQuoteOut)
    (inTokenMint inAmountLamport slippageBps : Nat) : SwapQuote :=
  let r := calculateSwapQuote inTokenMint inAmountLamport
  { swapInAmount := inAmountLamport
    swapOutAmount := r.amountOut
    minSwapOutAmount := getMinAmountWithSlippage r.amountOut slippageBps
    fee := r.fee
    priceImpact := r.priceImpact }

/-- Modelled from the spec: `calculateMaxSwapOutAmount` lives in the util
module, which is not part of the provided sources; per the spec it caps the
pool's out-token amount at the vault's reserve balance and fails on a mint
outside the pool's pair. -/
def calculateMaxSwapOutAmount (tokenMint tokenAMint tokenBMint
    tokenAAmount tokenBAmount vaultAReserve vaultBReserve : Nat) : Except AmmError Nat :=
  if tokenMint = tokenAMint then .ok (min tokenAAmount vaultAReserve)
  else if tokenMint = tokenBMint then .ok (min tokenBAmount vaultBReserve)
  else .error .invalidMint

/-- Embedding of `AmmImpl.getMaxSwapOutAmount`: forwards the snapshot to
`calculateMaxSwapOutAmount`. -/
def getMaxSwapOutAmount (p : PoolConfig) (acc : AccountsInfo) (info : PoolInfo)
    (tokenMint : Nat) : Except AmmError Nat :=
  calculateMaxSwapOutAmount tokenMint p.tokenAMint p.tokenBMint
    info.tokenAAmount info.tokenBAmount acc.vaultAReserve acc.vaultBReserve

/-- Embedding of `AmmImpl.getMaxSwapInAmount`: checks the mint belongs to the pool,
derives the maximum out amount, leaves one token in the pool when that
amount equals the whole destination amount, inverts it through
`computeInAmount` and subtracts the admin trading fee and the trading fee. -/
def getMaxSwapInAmount (p : PoolConfig) (acc : AccountsInfo) (info : PoolInfo)
    (ctx : Ctx) (tokenMint : Nat) : Except AmmError Nat :=
  if ¬(tokenMint = p.tokenAMint ∨ tokenMint = p.tokenBMint) then .error .invalidMint
  else
    let outTokenMint := if tokenMint = p.tokenAMint then p.tokenBMint else p.tokenAMint
    let swapSourceAmount := if tokenMint = p.tokenAMint then info.tokenAAmount else info.tokenBAmount
    let swapDestAmount := if tokenMint = p.tokenAMint then info.tokenBAmount else info.tokenAAmount
    let tradeDirection := if tokenMint = p.tokenAMint then TradeDirection.AToB else TradeDirection.BToA
    match getMaxSwapOutAmount p acc info outTokenMint with
    | .error e => .error e
    | .ok maxOutAmount0 =>
      let maxOutAmount := if maxOutAmount0 = swapDestAmount then maxOutAmount0 - 1 else maxOutAmount0
      let maxInAmount := ctx.curve.computeInAmount maxOutAmount swapSourceAmount swapDestAmount tradeDirection
      match calculateAdminTradingFee p.fees maxInAmount with
      | .error e => .error e
      | .ok adminFee =>
        match calculateTradingFee p.fees maxInAmount with
        | .error e => .error e
        | .ok tradeFee => .ok (maxInAmount - adminFee - tradeFee)

/-- Embedding of `AmmImpl.getDepositQuote`: the two `invariant` precondition checks, the
bootstrap branch on zero pool LP supply, the two balanced single-sided
branches (stable pools derive the missing side from the pool ratio with a
raw BN division; constant-product pools round-trip through
`computeActualInAmount`), and the imbalanced branch. -/
def getDepositQuote (p : PoolConfig) (acc : AccountsInfo) (info : PoolInfo) (ctx : Ctx)
    (tokenAInAmount tokenBInAmount : Nat) (balance : Bool) (slippage : Nat) :
    Except AmmError DepositQuote :=
  if p.isStablePool = false ∧ tokenAInAmount ≠ 0 ∧ tokenBInAmount ≠ 0 ∧ acc.poolLpSupply ≠ 0 then
    .error .invalidInput
  else if tokenAInAmount ≠ 0 ∧ tokenBInAmount ≠ 0 ∧ balance = true then
    .error .invalidInput
  else if acc.poolLpSupply = 0 then
    let poolTokenAmountOut := ctx.curve.computeD tokenAInAmount tokenBInAmount
    .ok { poolTokenAmountOut := poolTokenAmountOut
          minPoolTokenAmountOut := poolTokenAmountOut
          tokenAInAmount := tokenAInAmount
          tokenBInAmount := tokenBInAmount }
  else if tokenAInAmount = 0 ∧ balance = true then
    let poolTokenAmountOut :=
      getShareByAmount tokenBInAmount info.tokenBAmount acc.poolLpSupply false
    let bufferedPoolTokenAmountOut :=
      getMinAmountWithSlippage poolTokenAmountOut ctx.unlockAmountBuffer
    if p.isStablePool = true then
      match bnDiv (tokenBInAmount * info.tokenAAmount) info.tokenBAmount with
      | .error e => .error e
      | .ok aIn =>
        .ok { poolTokenAmountOut := bufferedPoolTokenAmountOut
              minPoolTokenAmountOut := getMinAmountWithSlippage bufferedPoolTokenAmountOut slippage
              tokenAInAmount := aIn
              tokenBInAmount := tokenBInAmount }
    else
      let actual := computeActualInAmount poolTokenAmountOut acc.poolLpSupply
        acc.poolVaultALp acc.poolVaultBLp acc.vaultALpSupply acc.vaultBLpSupply
        ctx.vaultAWithdrawableAmount ctx.vaultBWithdrawableAmount
      .ok { poolTokenAmountOut := bufferedPoolTokenAmountOut
            minPoolTokenAmountOut := getMinAmountWithSlippage bufferedPoolTokenAmountOut slippage
            tokenAInAmount := getMaxAmountWithSlippage actual.1 slippage
            tokenBInAmount := getMaxAmountWithSlippage actual.2 slippage }
  else if tokenBInAmount = 0 ∧ balance = true then
    let poolTokenAmountOut :=
      getShareByAmount tokenAInAmount info.tokenAAmount acc.poolLpSupply false
    let bufferedPoolTokenAmountOut :=
      getMinAmountWithSlippage poolTokenAmountOut ctx.unlockAmountBuffer
    if p.isStablePool = true then
      match bnDiv (tokenAInAmount * info.tokenBAmount) info.tokenAAmount with
      | .error e => .error e
      | .ok bIn =>
        .ok { poolTokenAmountOut := bufferedPoolTokenAmountOut
              minPoolTokenAmountOut := getMinAmountWithSlippage bufferedPoolTokenAmountOut slippage
              tokenAInAmount := tokenAInAmount
              tokenBInAmount := bIn }
    else
      let actual := computeActualInAmount poolTokenAmountOut acc.poolLpSupply
        acc.poolVaultALp acc.poolVaultBLp acc.vaultALpSupply acc.vaultBLpSupply
        ctx.vaultAWithdrawableAmount ctx.vaultBWithdrawableAmount
      .ok { poolTokenAmountOut := bufferedPoolTokenAmountOut
            minPoolTokenAmountOut := getMinAmountWithSlippage bufferedPoolTokenAmountOut slippage
            tokenAInAmount := getMaxAmountWithSlippage actual.1 slippage
            tokenBInAmount := getMaxAmountWithSlippage actual.2 slippage }
  else
    let actualDepositAAmount := ctx.computeActualDepositAmount tokenAInAmount
      info.tokenAAmount acc.poolVaultALp acc.vaultALpSupply ctx.vaultAWithdrawableAmount
    let actualDepositBAmount := ctx.computeActualDepositAmount tokenBInAmount
      info.tokenBAmount acc.poolVaultBLp acc.vaultBLpSupply ctx.vaultBWithdrawableAmount
    let poolTokenAmountOut := ctx.curve.computeImbalanceDeposit actualDepositAAmount
      actualDepositBAmount info.tokenAAmount info.tokenBAmount acc.poolLpSupply p.fees
    .ok { poolTokenAmountOut := poolTokenAmountOut
          minPoolTokenAmountOut := getMinAmountWithSlippage poolTokenAmountOut slippage
          tokenAInAmount := tokenAInAmount
          tokenBInAmount := tokenBInAmount }

/-- Embedding of `AmmImpl.getWithdrawQuote`: the balanced branch converts the LP amount
through the pool's vault-share holdings then each vault's share price; the
single-sided branch checks the mint, runs `computeWithdrawOne` and
round-trips the nominal output through the destination vault's share price
with two raw BN divisions. -/
def getWithdrawQuote (p : PoolConfig) (acc : AccountsInfo) (info : PoolInfo) (ctx : Ctx)
    (withdrawTokenAmount : Nat) (slippage : Nat) (tokenMint : Option Nat) :
    Except AmmError WithdrawQuote :=
  match tokenMint with
  | none =>
    let vaultALpBurn := getShareByAmount withdrawTokenAmount acc.poolLpSupply acc.poolVaultALp false
    let vaultBLpBurn := getShareByAmount withdrawTokenAmount acc.poolLpSupply acc.poolVaultBLp false
    let tokenAOutAmount := getAmountByShare vaultALpBurn ctx.vaultAWithdrawableAmount acc.vaultALpSupply false
    let tokenBOutAmount := getAmountByShare vaultBLpBurn ctx.vaultBWithdrawableAmount acc.vaultBLpSupply false
    .ok { poolTokenAmountIn := withdrawTokenAmount
          tokenAOutAmount := tokenAOutAmount
          tokenBOutAmount := tokenBOutAmount
          minTokenAOutAmount := getMinAmountWithSlippage tokenAOutAmount slippage
          minTokenBOutAmount := getMinAmountWithSlippage tokenBOutAmount slippage }
  | some mint =>
    if ¬(mint = p.tokenAMint ∨ mint = p.tokenBMint) then .error .invalidMint
    else
      -- the trade direction is `BToA` exactly when the requested mint is
      -- token A, so the destination-vault selection (the side opposite to
      -- `AToB`) is written directly on the mint comparison
      match bnDiv
          (ctx.curve.computeWithdrawOne withdrawTokenAmount acc.poolLpSupply
              info.tokenAAmount info.tokenBAmount p.fees
              (if mint = p.tokenAMint then TradeDirection.BToA else TradeDirection.AToB)
            * (if mint = p.tokenAMint then acc.vaultALpSupply else acc.vaultBLpSupply))
          (if mint = p.tokenAMint then ctx.vaultAWithdrawableAmount else ctx.vaultBWithdrawableAmount) with
      | .error e => .error e
      | .ok vaultLpToBurn =>
        match bnDiv
            (vaultLpToBurn
              * (if mint = p.tokenAMint then ctx.vaultAWithdrawableAmount else ctx.vaultBWithdrawableAmount))
            (if mint = p.tokenAMint then acc.vaultALpSupply else acc.vaultBLpSupply) with
        | .error e => .error e
        | .ok realOutAmount =>
          .ok { poolTokenAmountIn := withdrawTokenAmount
                tokenAOutAmount := if mint = p.tokenAMint then realOutAmount else 0
                tokenBOutAmount := if mint = p.tokenBMint then realOutAmount else 0
                minTokenAOutAmount := if mint = p.tokenAMint then getMinAmountWithSlippage realOutAmount slippage else 0
                minTokenBOutAmount := if mint = p.tokenBMint then getMinAmountWithSlippage realOutAmount slippage else 0 }

/-- Ceiling division, written from the spec's words for the rounding claim:
the smallest integer greater than or equal to the exact rational quotient. -/
def ceilDiv (a b : Nat) : Nat :=
  (a + b - 1) / b

/-- Evaluation lemma: BN division with a non-zero divisor succeeds with the
floor quotient. -/
theorem bnDiv_eq_ok (a b : Nat) (h : b ≠ 0) : bnDiv a b = .ok (a / b) := by
  unfold bnDiv
  rw [if_neg h]

/-- Evaluation lemma: BN division with a zero divisor fails. -/
theorem bnDiv_eq_error (a b : Nat) (h : b = 0) : bnDiv a b = .error AmmError.divisionByZero := by
  unfold bnDiv
  rw [if_pos h]

/-- Sample constant-product pool configuration for concrete evaluations. -/
def cpPool : PoolConfig :=
  { isStablePool := false
    tokenAMultiplier := 1
    tokenBMultiplier := 1
    fees := { tradeFeeNumerator := 25, tradeFeeDenominator := 10000
              ownerTradeFeeNumerator := 5, ownerTradeFeeDenominator := 10000 }
    tokenAMint := 1
    tokenBMint := 2 }

/-- Sample stable pool configuration for concrete evaluations. -/
def stablePool : PoolConfig :=
  { cpPool with isStablePool := true }

/-- Sample curve operations standing in for the curve module in concrete
evaluations (the quote-engine claims hold for every curve). -/
def sampleCurve : CurveOps :=
  { computeD := fun a b => a + b
    computeInAmount := fun amountOut _ _ _ => amountOut
    computeImbalanceDeposit := fun a b _ _ _ _ => a + b
    computeWithdrawOne := fun lp _ _ _ _ _ => lp }

/-- Sample external inputs for concrete evaluations. -/
def sampleCtx : Ctx :=
  { curve := sampleCurve
    computeActualDepositAmount := fun d _ _ _ _ => d
    unlockAmountBuffer := 5
    vaultAWithdrawableAmount := 1000
    vaultBWithdrawableAmount := 1000 }

/-- Sample snapshot of a pool that has never been bootstrapped. -/
def emptyPoolAccounts : AccountsInfo :=
  { currentTime := 100, poolVaultALp := 0, poolVaultBLp := 0
    vaultALpSupply := 0, vaultBLpSupply := 0
    vaultAReserve := 0, vaultBReserve := 0, poolLpSupply := 0 }

/-- Sample snapshot of a pool holding liquidity. -/
def livePoolAccounts : AccountsInfo :=
  { currentTime := 100, poolVaultALp := 500, poolVaultBLp := 600
    vaultALpSupply := 7, vaultBLpSupply := 11
    vaultAReserve := 2000, vaultBReserve := 3000, poolLpSupply := 1000 }

/-- Sample pool token amounts. -/
def samplePoolInfo : PoolInfo :=
  { tokenAAmount := 400, tokenBAmount := 100 }

/-- C1: for every swap quote produced by `getSwapQuote`, the returned
minimum out amount equals `swapOutAmount * (10000 - slippageBps) / 10000`
exactly, and is at most the out amount. -/
theorem getSwapQuote_slippage_bound (calculateSwapQuote : Nat → Nat → SwapQuoteOut)
    (inTokenMint inAmountLamport slippageBps : Nat) :
    (getSwapQuote calculateSwapQuote inTokenMint inAmountLamport slippageBps).minSwapOutAmount
        = (getSwapQuote calculateSwapQuote inTokenMint inAmountLamport slippageBps).swapOutAmount
            * (10000 - slippageBps) / 10000
      ∧ (getSwapQuote calculateSwapQuote inTokenMint inAmountLamport slippageBps).minSwapOutAmount
        ≤ (getSwapQuote calculateSwapQuote inTokenMint inAmountLamport slippageBps).swapOutAmount := by
  refine ⟨rfl, ?_⟩
  show getMinAmountWithSlippage (calculateSwapQuote inTokenMint inAmountLamport).amountOut slippageBps
    ≤ (calculateSwapQuote inTokenMint inAmountLamport).amountOut
  unfold getMinAmountWithSlippage
  have h1 : (calculateSwapQuote inTokenMint inAmountLamport).amountOut * (10000 - slippageBps)
      ≤ (calculateSwapQuote inTokenMint inAmountLamport).amountOut * 10000 :=
    Nat.mul_le_mul_left _ (Nat.sub_le _ _)
  calc (calculateSwapQuote inTokenMint inAmountLamport).amountOut * (10000 - slippageBps) / 10000
      ≤ (calculateSwapQuote inTokenMint inAmountLamport).amountOut * 10000 / 10000 :=
        Nat.div_le_div_right h1
    _ = (calculateSwapQuote inTokenMint inAmountLamport).amountOut :=
        Nat.mul_div_cancel _ (by norm_num)

/-- C4: the share-from-amount conversion returns 0 when the total amount
(its divisor) is 0, and the amount-from-share conversion returns 0 when the
total share supply (its divisor) is 0; both are total functions, so neither
fails in the zero-divisor case. -/
theorem share_conversions_zero_divisor :
    (∀ amount lpSupply roundUp, getShareByAmount amount 0 lpSupply roundUp = 0)
      ∧ (∀ amount tokenAmount roundUp, getAmountByShare amount tokenAmount 0 roundUp = 0) := by
  exact ⟨fun _ _ _ => rfl, fun _ _ _ => rfl⟩

/-- C10: `depegToken` returns none on every non-stable pool, and on every
stable pool whose multiplier-normalized total balance is zero; it is a total
function, so it never divides by zero and never fails. -/
theorem depegToken_total_safety (p : PoolConfig) (info : PoolInfo)
    (h : p.isStablePool = false
      ∨ info.tokenAAmount * p.tokenAMultiplier + info.tokenBAmount * p.tokenBMultiplier = 0) :
    depegToken p info = none := by
  rcases h with h | h
  · simp [depegToken, h]
  · simp [depegToken, h]

/-- Helper: with a non-zero divisor, BN.js nearest rounding agrees with
adding half the divisor before flooring. -/
theorem divRound_eq_add_half_div (a n : Nat) (hn : n ≠ 0) :
    divRound a n = (a + n / 2) / n := by
  have h0 : 0 < n := Nat.pos_of_ne_zero hn
  obtain ⟨h2, r2, hn2, hr2⟩ : ∃ h2 r2, n = 2 * h2 + r2 ∧ r2 < 2 :=
    ⟨n / 2, n % 2, (Nat.div_add_mod n 2).symm, Nat.mod_lt _ (by norm_num)⟩
  have hhalf : n / 2 = h2 := by omega
  have hmod2 : n % 2 = r2 := by omega
  obtain ⟨q, m, ha, hm⟩ : ∃ q m, a = n * q + m ∧ m < n :=
    ⟨a / n, a % n, (Nat.div_add_mod a n).symm, Nat.mod_lt _ h0⟩
  subst ha
  have hdiv : (n * q + m) / n = q := by
    rw [Nat.mul_add_div h0, Nat.div_eq_of_lt hm, Nat.add_zero]
  have hmodm : (n * q + m) % n = m := by
    rw [Nat.mul_add_mod, Nat.mod_eq_of_lt hm]
  have hsplit : (n * q + m + h2) / n = q + (m + h2) / n := by
    rw [Nat.add_assoc, Nat.mul_add_div h0]
  unfold divRound
  simp only [hdiv, hmodm, hhalf, hmod2, hsplit]
  by_cases hm0 : m = 0
  · rw [if_pos hm0]
    have hz : (m + h2) / n = 0 := Nat.div_eq_of_lt (by omega)
    omega
  · rw [if_neg hm0]
    by_cases hc : m < h2 ∨ (r2 = 1 ∧ m = h2)
    · rw [if_pos hc]
      have hz : (m + h2) / n = 0 := Nat.div_eq_of_lt (by omega)
      omega
    · rw [if_neg hc]
      have ho : (m + h2) / n = 1 := by
        have hlo : 1 * n ≤ m + h2 := by omega
        have hhi : m + h2 < (1 + 1) * n := by omega
        exact Nat.div_eq_of_lt_le hlo hhi
      omega

/-- C5 counterexample: with the round-up flag, the share conversion of
amount 1 against total amount 3 and share supply 1 returns 0, while the
ceiling of the exact quotient 1/3 is 1 — the flag does not implement
ceiling rounding. -/
theorem getShareByAmount_roundUp_below_ceiling :
    getShareByAmount 1 3 1 true = 0 ∧ ceilDiv (1 * 1) 3 = 1 := by
  decide

/-- C5 amended: with the round-up flag and a non-zero divisor, both share
conversions return the quotient rounded to the nearest integer — the floor
of the numerator plus half the divisor — and `computeActualInAmount`
computes both vault-share deposit amounts through exactly these
round-up-flag conversions. -/
theorem roundUp_flag_rounds_to_nearest (amount tokenAmount lpSupply : Nat) :
    (tokenAmount ≠ 0 → getShareByAmount amount tokenAmount lpSupply true
        = (amount * lpSupply + tokenAmount / 2) / tokenAmount)
      ∧ (lpSupply ≠ 0 → getAmountByShare amount tokenAmount lpSupply true
        = (amount * tokenAmount + lpSupply / 2) / lpSupply)
      ∧ (∀ pt pls pvA pvB vAS vBS wA wB, computeActualInAmount pt pls pvA pvB vAS vBS wA wB
        = (getAmountByShare (getShareByAmount pt pls pvA true) wA vAS true,
           getAmountByShare (getShareByAmount pt pls pvB true) wB vBS true)) := by
  refine ⟨?_, ?_, fun _ _ _ _ _ _ _ _ => rfl⟩
  · intro h
    unfold getShareByAmount
    rw [if_neg h, if_pos rfl]
    exact divRound_eq_add_half_div _ _ h
  · intro h
    unfold getAmountByShare
    rw [if_neg h, if_pos rfl]
    exact divRound_eq_add_half_div _ _ h

/-- C5 witness: the nearest-rounding theorem evaluated at amount 7, total
amount 3, share supply 5. -/
theorem roundUp_flag_rounds_to_nearest_witness :
    getShareByAmount 7 3 5 true = (7 * 5 + 3 / 2) / 3
      ∧ getAmountByShare 7 3 5 true = (7 * 3 + 5 / 2) / 5 :=
  ⟨(roundUp_flag_rounds_to_nearest 7 3 5).1 (by decide),
   (roundUp_flag_rounds_to_nearest 7 3 5).2.1 (by decide)⟩

/-- Helper: the depeg test `x * 2 / total * 100 > 95` holds exactly when
twice `x` reaches the (non-zero) total. -/
theorem depeg_test_iff (x total : Nat) (h : total ≠ 0) :
    (x * 2 / total * 100 > 95 ↔ total ≤ 2 * x) := by
  have h0 : 0 < total := Nat.pos_of_ne_zero h
  rcases Nat.lt_or_ge (x * 2) total with hlt | hge
  · have hd : x * 2 / total = 0 := Nat.div_eq_of_lt hlt
    rw [hd]
    constructor
    · intro hgt
      exact absurd hgt (by norm_num)
    · intro hle
      exact absurd hle (by omega)
  · have hd : 1 ≤ x * 2 / total := (Nat.one_le_div_iff h0).mpr hge
    have h100 : 100 ≤ x * 2 / total * 100 := by
      calc 100 = 1 * 100 := (Nat.one_mul 100).symm
        _ ≤ x * 2 / total * 100 := Nat.mul_le_mul_right 100 hd
    constructor
    · intro _
      omega
    · intro _
      exact lt_of_lt_of_le (by norm_num) h100

/-- C3 counterexample: on the sample stable pool with unit multipliers and
amounts (6, 4), `depegToken` reports token A although A's share of the
multiplier-normalized total is 60 percent, which does not exceed 95
percent. -/
theorem depegToken_reports_below_95_percent :
    depegToken stablePool { tokenAAmount := 6, tokenBAmount := 4 } = some WhichToken.A
      ∧ ¬(6 * stablePool.tokenAMultiplier * 100
          > 95 * (6 * stablePool.tokenAMultiplier + 4 * stablePool.tokenBMultiplier)) := by
  decide

/-- C3 amended: on a stable pool with non-zero multiplier-normalized total,
`depegToken` reports token A exactly when twice A's raw amount reaches the
normalized total, and token B exactly when A does not qualify and twice B's
raw amount reaches the normalized total. -/
theorem depegToken_characterisation (p : PoolConfig) (info : PoolInfo)
    (hstable : p.isStablePool = true)
    (htotal : info.tokenAAmount * p.tokenAMultiplier + info.tokenBAmount * p.tokenBMultiplier ≠ 0) :
    (depegToken p info = some WhichToken.A
        ↔ info.tokenAAmount * p.tokenAMultiplier + info.tokenBAmount * p.tokenBMultiplier
            ≤ 2 * info.tokenAAmount)
      ∧ (depegToken p info = some WhichToken.B
        ↔ ¬(info.tokenAAmount * p.tokenAMultiplier + info.tokenBAmount * p.tokenBMultiplier
              ≤ 2 * info.tokenAAmount)
          ∧ info.tokenAAmount * p.tokenAMultiplier + info.tokenBAmount * p.tokenBMultiplier
            ≤ 2 * info.tokenBAmount) := by
  have hns : ¬(p.isStablePool = false) := by
    rw [hstable]
    simp
  have hA := depeg_test_iff info.tokenAAmount
    (info.tokenAAmount * p.tokenAMultiplier + info.tokenBAmount * p.tokenBMultiplier) htotal
  have hB := depeg_test_iff info.tokenBAmount
    (info.tokenAAmount * p.tokenAMultiplier + info.tokenBAmount * p.tokenBMultiplier) htotal
  unfold depegToken
  rw [if_neg hns, if_neg htotal]
  by_cases hAtest : info.tokenAAmount * 2
      / (info.tokenAAmount * p.tokenAMultiplier + info.tokenBAmount * p.tokenBMultiplier)
      * 100 > 95
  · rw [if_pos hAtest]
    constructor
    · simp only [Option.some.injEq]
      constructor
      · intro _
        exact hA.mp hAtest
      · intro _
        trivial
    · constructor
      · intro hcontra
        exact absurd hcontra (by simp)
      · intro ⟨hnA, _⟩
        exact absurd (hA.mp hAtest) hnA
  · rw [if_neg hAtest]
    by_cases hBtest : info.tokenBAmount * 2
        / (info.tokenAAmount * p.tokenAMultiplier + info.tokenBAmount * p.tokenBMultiplier)
        * 100 > 95
    · rw [if_pos hBtest]
      constructor
      · constructor
        · intro hcontra
          exact absurd hcontra (by simp)
        · intro hle
          exact absurd (hA.mpr hle) hAtest
      · simp only [Option.some.injEq]
        constructor
        · intro _
          exact ⟨fun hle => hAtest (hA.mpr hle), hB.mp hBtest⟩
        · intro _
          trivial
    · rw [if_neg hBtest]
      constructor
      · constructor
        · intro hcontra
          exact absurd hcontra (by simp)
        · intro hle
          exact absurd (hA.mpr hle) hAtest
      · constructor
        · intro hcontra
          exact absurd hcontra (by simp)
        · intro ⟨_, hBle⟩
          exact absurd (hB.mpr hBle) hBtest

/-- C3 witness: the characterisation evaluated on the sample stable pool at
amounts (9, 1), where twice A's amount reaches the normalized total. -/
theorem depegToken_characterisation_witness :
    depegToken stablePool { tokenAAmount := 9, tokenBAmount := 1 } = some WhichToken.A :=
  (depegToken_characterisation stablePool { tokenAAmount := 9, tokenBAmount := 1 }
    rfl (by decide)).1.mpr (by decide)

/-- C10 witness: the safety theorem evaluated on the sample constant-product
pool and on a drained sample stable pool. -/
theorem depegToken_total_safety_witness :
    depegToken cpPool samplePoolInfo = none
      ∧ depegToken stablePool { tokenAAmount := 0, tokenBAmount := 0 } = none :=
  ⟨depegToken_total_safety cpPool samplePoolInfo (Or.inl rfl),
   depegToken_total_safety stablePool { tokenAAmount := 0, tokenBAmount := 0 } (Or.inr (by decide))⟩

/-- C2 counterexample: on a snapshot with zero pool LP supply, input amounts
(1, 1) and the balance flag set, `getDepositQuote` raises the invalid-input
precondition failure instead of taking the bootstrap branch. -/
theorem getDepositQuote_bootstrap_blocked_by_balance_check :
    getDepositQuote cpPool emptyPoolAccounts samplePoolInfo sampleCtx 1 1 true 0
        = .error AmmError.invalidInput
      ∧ getDepositQuote cpPool emptyPoolAccounts samplePoolInfo sampleCtx 1 1 true 0
        ≠ .ok { poolTokenAmountOut := sampleCtx.curve.computeD 1 1
                minPoolTokenAmountOut := sampleCtx.curve.computeD 1 1
                tokenAInAmount := 1
                tokenBInAmount := 1 } := by
  exact ⟨rfl, fun h => Except.noConfusion h⟩

/-- C2 amended: on a snapshot with zero pool LP supply, for every pair of
input amounts and every balance flag that pass the balance precondition
(that is, not both amounts non-zero with the flag set), `getDepositQuote`
takes the bootstrap branch: the minted amount is `computeD` of the two
inputs, the minimum equals it with no slippage adjustment, and both input
amounts are returned unchanged. -/
theorem getDepositQuote_bootstrap (p : PoolConfig) (acc : AccountsInfo) (info : PoolInfo)
    (ctx : Ctx) (tokenAInAmount tokenBInAmount : Nat) (balance : Bool) (slippage : Nat)
    (hsupply : acc.poolLpSupply = 0)
    (hbal : ¬(tokenAInAmount ≠ 0 ∧ tokenBInAmount ≠ 0 ∧ balance = true)) :
    getDepositQuote p acc info ctx tokenAInAmount tokenBInAmount balance slippage
      = .ok { poolTokenAmountOut := ctx.curve.computeD tokenAInAmount tokenBInAmount
              minPoolTokenAmountOut := ctx.curve.computeD tokenAInAmount tokenBInAmount
              tokenAInAmount := tokenAInAmount
              tokenBInAmount := tokenBInAmount } := by
  unfold getDepositQuote
  rw [if_neg (fun hc => hc.2.2.2 hsupply), if_neg hbal, if_pos hsupply]

/-- C2 witness: the bootstrap theorem evaluated at inputs (3, 0) with the
balance flag set, on the empty sample snapshot. -/
theorem getDepositQuote_bootstrap_witness :
    getDepositQuote cpPool emptyPoolAccounts samplePoolInfo sampleCtx 3 0 true 0
      = .ok { poolTokenAmountOut := 3
              minPoolTokenAmountOut := 3
              tokenAInAmount := 3
              tokenBInAmount := 0 } := by
  have h := getDepositQuote_bootstrap cpPool emptyPoolAccounts samplePoolInfo sampleCtx
    3 0 true 0 rfl (by simp)
  exact h

/-- C6 counterexample: a stable pool with existing liquidity, input amounts
(4, 0), the balance flag set and a zero pool token-A amount passes both
precondition checks, yet no quote is produced: the pool-ratio derivation
divides by zero. -/
theorem getDepositQuote_checks_pass_but_no_quote :
    getDepositQuote stablePool livePoolAccounts { tokenAAmount := 0, tokenBAmount := 100 }
      sampleCtx 4 0 true 0 = .error AmmError.divisionByZero := by
  rfl

/-- C6 amended: `getDepositQuote` raises the invalid-input failure whenever
both inputs are non-zero and the balance flag is set, and whenever the pool
is constant-product with existing liquidity and both inputs are non-zero;
on all other inputs the two precondition checks pass and a quote is
produced, except on a stable pool's balanced single-sided path whose
pool-ratio denominator (the pool amount of the other side's token) is zero,
which fails with the division-by-zero error. -/
theorem getDepositQuote_precondition_checks (p : PoolConfig) (acc : AccountsInfo)
    (info : PoolInfo) (ctx : Ctx) (a b : Nat) (balance : Bool) (slippage : Nat) :
    ((a ≠ 0 ∧ b ≠ 0 ∧ balance = true) →
        getDepositQuote p acc info ctx a b balance slippage = .error AmmError.invalidInput)
      ∧ ((p.isStablePool = false ∧ acc.poolLpSupply ≠ 0 ∧ a ≠ 0 ∧ b ≠ 0) →
        getDepositQuote p acc info ctx a b balance slippage = .error AmmError.invalidInput)
      ∧ (¬(a ≠ 0 ∧ b ≠ 0 ∧ balance = true) →
         ¬(p.isStablePool = false ∧ acc.poolLpSupply ≠ 0 ∧ a ≠ 0 ∧ b ≠ 0) →
         ((p.isStablePool = true ∧ acc.poolLpSupply ≠ 0 ∧ balance = true ∧
              ((a = 0 ∧ info.tokenBAmount = 0) ∨ (a ≠ 0 ∧ b = 0 ∧ info.tokenAAmount = 0)) →
            getDepositQuote p acc info ctx a b balance slippage = .error AmmError.divisionByZero)
          ∧ (¬(p.isStablePool = true ∧ acc.poolLpSupply ≠ 0 ∧ balance = true ∧
              ((a = 0 ∧ info.tokenBAmount = 0) ∨ (a ≠ 0 ∧ b = 0 ∧ info.tokenAAmount = 0))) →
            ∃ q, getDepositQuote p acc info ctx a b balance slippage = .ok q))) := by
  refine ⟨?_, ?_, ?_⟩
  · intro ⟨ha, hb, hbal⟩
    unfold getDepositQuote
    by_cases hc1 : p.isStablePool = false ∧ a ≠ 0 ∧ b ≠ 0 ∧ acc.poolLpSupply ≠ 0
    · rw [if_pos hc1]
    · rw [if_neg hc1, if_pos ⟨ha, hb, hbal⟩]
  · intro ⟨hcp, hsup, ha, hb⟩
    unfold getDepositQuote
    rw [if_pos ⟨hcp, ha, hb, hsup⟩]
  · intro h1 h2
    constructor
    · intro ⟨hst, hsup, hbal, hcases⟩
      have hc1 : ¬(p.isStablePool = false ∧ a ≠ 0 ∧ b ≠ 0 ∧ acc.poolLpSupply ≠ 0) := by
        intro hc
        rw [hst] at hc
        simp at hc
      unfold getDepositQuote
      rw [if_neg hc1, if_neg h1, if_neg hsup]
      rcases hcases with ⟨ha0, hB0⟩ | ⟨haNe, hb0, hA0⟩
      · rw [if_pos ⟨ha0, hbal⟩, if_pos hst, hB0, bnDiv_eq_error _ _ rfl]
      · rw [if_neg (fun hc => haNe hc.1), if_pos ⟨hb0, hbal⟩, if_pos hst, hA0,
          bnDiv_eq_error _ _ rfl]
    · intro h3
      have hc1 : ¬(p.isStablePool = false ∧ a ≠ 0 ∧ b ≠ 0 ∧ acc.poolLpSupply ≠ 0) :=
        fun hc => h2 ⟨hc.1, hc.2.2.2, hc.2.1, hc.2.2.1⟩
      unfold getDepositQuote
      rw [if_neg hc1, if_neg h1]
      by_cases hsup : acc.poolLpSupply = 0
      · rw [if_pos hsup]
        exact ⟨_, rfl⟩
      · rw [if_neg hsup]
        by_cases hA0 : a = 0 ∧ balance = true
        · rw [if_pos hA0]
          by_cases hst : p.isStablePool = true
          · rw [if_pos hst]
            have hBne : info.tokenBAmount ≠ 0 :=
              fun hB0 => h3 ⟨hst, hsup, hA0.2, Or.inl ⟨hA0.1, hB0⟩⟩
            rw [bnDiv_eq_ok _ _ hBne]
            exact ⟨_, rfl⟩
          · rw [if_neg hst]
            exact ⟨_, rfl⟩
        · rw [if_neg hA0]
          by_cases hB0 : b = 0 ∧ balance = true
          · rw [if_pos hB0]
            by_cases hst : p.isStablePool = true
            · rw [if_pos hst]
              have haNe : a ≠ 0 := fun ha0 => hA0 ⟨ha0, hB0.2⟩
              have hAne : info.tokenAAmount ≠ 0 :=
                fun hz => h3 ⟨hst, hsup, hB0.2, Or.inr ⟨haNe, hB0.1, hz⟩⟩
              rw [bnDiv_eq_ok _ _ hAne]
              exact ⟨_, rfl⟩
            · rw [if_neg hst]
              exact ⟨_, rfl⟩
          · rw [if_neg hB0]
            exact ⟨_, rfl⟩

/-- C6 witness: the precondition theorem evaluated on the live sample stable
pool — inputs (5, 6) with the balance flag raise the invalid-input failure,
and the same inputs without the flag produce an imbalanced quote. -/
theorem getDepositQuote_precondition_checks_witness :
    getDepositQuote stablePool livePoolAccounts samplePoolInfo sampleCtx 5 6 true 0
        = .error AmmError.invalidInput
      ∧ ∃ q, getDepositQuote stablePool livePoolAccounts samplePoolInfo sampleCtx 5 6 false 0
        = .ok q := by
  constructor
  · exact (getDepositQuote_precondition_checks stablePool livePoolAccounts samplePoolInfo
      sampleCtx 5 6 true 0).1 (by decide)
  · exact ((getDepositQuote_precondition_checks stablePool livePoolAccounts samplePoolInfo
      sampleCtx 5 6 false 0).2.2 (by decide) (by decide)).2 (by decide)

/-- C9 counterexample: the stable balanced deposit path derives the missing
side from the pool ratio with a raw BN division; at a zero pool token-B
amount it fails with the division-by-zero error instead of yielding a zero
result. -/
theorem stable_balanced_deposit_fails_on_zero_denominator :
    getDepositQuote stablePool livePoolAccounts { tokenAAmount := 400, tokenBAmount := 0 }
      sampleCtx 0 7 true 0 = .error AmmError.divisionByZero := by
  rfl

/-- C9 amended: ratio divisions routed through the guarded share converters
yield a zero result on a zero denominator, but the stable-pool balanced
deposit ratio derivation (both single-sided branches, dividing by the other
side's pool token amount) and the single-sided withdraw vault round-trip
(both mint sides, dividing by the destination vault's withdrawable amount
and then by its LP supply) perform raw BN divisions and fail with the
division-by-zero error when the denominator — a zero pool token amount,
respectively a zero vault withdrawable amount or a zero vault LP supply —
is zero. -/
theorem ratio_division_zero_denominator_policy :
    (∀ amount lpSupply roundUp, getShareByAmount amount 0 lpSupply roundUp = 0
        ∧ getAmountByShare amount lpSupply 0 roundUp = 0)
      ∧ (∀ (p : PoolConfig) (acc : AccountsInfo) (info : PoolInfo) (ctx : Ctx) (b slippage : Nat),
          p.isStablePool = true → acc.poolLpSupply ≠ 0 → info.tokenBAmount = 0 →
          getDepositQuote p acc info ctx 0 b true slippage = .error AmmError.divisionByZero)
      ∧ (∀ (p : PoolConfig) (acc : AccountsInfo) (info : PoolInfo) (ctx : Ctx) (a slippage : Nat),
          p.isStablePool = true → acc.poolLpSupply ≠ 0 → a ≠ 0 → info.tokenAAmount = 0 →
          getDepositQuote p acc info ctx a 0 true slippage = .error AmmError.divisionByZero)
      ∧ (∀ (p : PoolConfig) (acc : AccountsInfo) (info : PoolInfo) (ctx : Ctx)
            (w slippage mint : Nat),
          mint = p.tokenAMint →
          acc.vaultALpSupply = 0 ∨ ctx.vaultAWithdrawableAmount = 0 →
          getWithdrawQuote p acc info ctx w slippage (some mint) = .error AmmError.divisionByZero)
      ∧ (∀ (p : PoolConfig) (acc : AccountsInfo) (info : PoolInfo) (ctx : Ctx)
            (w slippage mint : Nat),
          mint = p.tokenBMint → mint ≠ p.tokenAMint →
          acc.vaultBLpSupply = 0 ∨ ctx.vaultBWithdrawableAmount = 0 →
          getWithdrawQuote p acc info ctx w slippage (some mint) = .error AmmError.divisionByZero) := by
  refine ⟨fun _ _ _ => ⟨rfl, rfl⟩, ?_, ?_, ?_, ?_⟩
  · intro p acc info ctx b slippage hst hsup hB0
    unfold getDepositQuote
    rw [if_neg (fun hc => hc.2.1 rfl), if_neg (fun hc => hc.1 rfl), if_neg hsup,
      if_pos ⟨rfl, rfl⟩, if_pos hst, hB0, bnDiv_eq_error _ _ rfl]
  · intro p acc info ctx a slippage hst hsup haNe hA0
    unfold getDepositQuote
    rw [if_neg (fun hc => hc.2.2.1 rfl), if_neg (fun hc => hc.2.1 rfl), if_neg hsup,
      if_neg (fun hc => haNe hc.1), if_pos ⟨rfl, rfl⟩, if_pos hst, hA0,
      bnDiv_eq_error _ _ rfl]
  · intro p acc info ctx w slippage mint hmint hden
    subst hmint
    rcases hden with hS0 | hT0
    · by_cases hT : ctx.vaultAWithdrawableAmount = 0
      · simp [getWithdrawQuote, bnDiv_eq_error, hT]
      · simp [getWithdrawQuote, bnDiv_eq_ok, hT, bnDiv_eq_error, hS0]
    · simp [getWithdrawQuote, bnDiv_eq_error, hT0]
  · intro p acc info ctx w slippage mint hmint hne hden
    subst hmint
    rcases hden with hS0 | hT0
    · by_cases hT : ctx.vaultBWithdrawableAmount = 0
      · simp [getWithdrawQuote, hne, bnDiv_eq_error, hT]
      · simp [getWithdrawQuote, hne, bnDiv_eq_ok, hT, bnDiv_eq_error, hS0]
    · simp [getWithdrawQuote, hne, bnDiv_eq_error, hT0]

/-- C9 witness: the policy theorem evaluated at concrete inputs — the
guarded converters at amount 9, both stable balanced deposit branches on a
drained pool token amount, the token-A withdraw with a zero vault-A
withdrawable amount, and the token-B withdraw with a zero vault-B LP
supply. -/
theorem ratio_division_zero_denominator_policy_witness :
    (getShareByAmount 9 0 4 false = 0 ∧ getAmountByShare 9 4 0 false = 0)
      ∧ getDepositQuote stablePool livePoolAccounts { tokenAAmount := 5, tokenBAmount := 0 }
          sampleCtx 0 11 true 3 = .error AmmError.divisionByZero
      ∧ getDepositQuote stablePool livePoolAccounts { tokenAAmount := 0, tokenBAmount := 5 }
          sampleCtx 11 0 true 3 = .error AmmError.divisionByZero
      ∧ getWithdrawQuote stablePool livePoolAccounts samplePoolInfo
          { sampleCtx with vaultAWithdrawableAmount := 0 } 13 3 (some 1)
          = .error AmmError.divisionByZero
      ∧ getWithdrawQuote stablePool { livePoolAccounts with vaultBLpSupply := 0 }
          samplePoolInfo sampleCtx 13 3 (some 2) = .error AmmError.divisionByZero := by
  refine ⟨ratio_division_zero_denominator_policy.1 9 4 false, ?_, ?_, ?_, ?_⟩
  · exact ratio_division_zero_denominator_policy.2.1 stablePool livePoolAccounts
      { tokenAAmount := 5, tokenBAmount := 0 } sampleCtx 11 3 rfl (by decide) rfl
  · exact ratio_division_zero_denominator_policy.2.2.1 stablePool livePoolAccounts
      { tokenAAmount := 0, tokenBAmount := 5 } sampleCtx 11 3 rfl (by decide) (by decide) rfl
  · exact ratio_division_zero_denominator_policy.2.2.2.1 stablePool livePoolAccounts
      samplePoolInfo { sampleCtx with vaultAWithdrawableAmount := 0 } 13 3 1 rfl (Or.inr rfl)
  · exact ratio_division_zero_denominator_policy.2.2.2.2 stablePool
      { livePoolAccounts with vaultBLpSupply := 0 } samplePoolInfo sampleCtx 13 3 2 rfl
      (by decide) (Or.inl rfl)

/-- Shorthand for the out-amount cap of `getMaxSwapInAmount`: the
destination pool amount capped at the vault reserve, lowered by one unit
when the cap equals the whole destination amount. -/
def maxOutAfterFloor (destAmount reserve : Nat) : Nat :=
  if min destAmount reserve = destAmount then destAmount - 1 else min destAmount reserve

/-- Shorthand for the fee deduction of `getMaxSwapInAmount`: both the admin
trading fee and the trading fee of the derived input are subtracted from
it. -/
def maxInAfterFees (fees : Fees) (maxIn : Nat) : Nat :=
  maxIn - maxIn * fees.ownerTradeFeeNumerator / fees.ownerTradeFeeDenominator
    - maxIn * fees.tradeFeeNumerator / fees.tradeFeeDenominator

/-- C7: for a mint outside the pool's pair `getMaxSwapInAmount` fails with
the invalid-mint error; for each mint of the pair it caps the maximum
output at the destination side's amount minus a 1-unit floor (never more
than the destination amount less one), derives the input through
`computeInAmount`, and subtracts both the trading fee and the admin trading
fee from that input. -/
theorem getMaxSwapInAmount_spec (p : PoolConfig) (acc : AccountsInfo) (info : PoolInfo)
    (ctx : Ctx) (tokenMint : Nat)
    (hAB : p.tokenAMint ≠ p.tokenBMint)
    (hod : p.fees.ownerTradeFeeDenominator ≠ 0)
    (htd : p.fees.tradeFeeDenominator ≠ 0) :
    (¬(tokenMint = p.tokenAMint ∨ tokenMint = p.tokenBMint) →
        getMaxSwapInAmount p acc info ctx tokenMint = .error AmmError.invalidMint)
      ∧ (tokenMint = p.tokenAMint → 0 < info.tokenBAmount →
          maxOutAfterFloor info.tokenBAmount acc.vaultBReserve ≤ info.tokenBAmount - 1
          ∧ getMaxSwapInAmount p acc info ctx tokenMint
            = .ok (maxInAfterFees p.fees (ctx.curve.computeInAmount
                (maxOutAfterFloor info.tokenBAmount acc.vaultBReserve)
                info.tokenAAmount info.tokenBAmount TradeDirection.AToB)))
      ∧ (tokenMint = p.tokenBMint → 0 < info.tokenAAmount →
          maxOutAfterFloor info.tokenAAmount acc.vaultAReserve ≤ info.tokenAAmount - 1
          ∧ getMaxSwapInAmount p acc info ctx tokenMint
            = .ok (maxInAfterFees p.fees (ctx.curve.computeInAmount
                (maxOutAfterFloor info.tokenAAmount acc.vaultAReserve)
                info.tokenBAmount info.tokenAAmount TradeDirection.BToA))) := by
  refine ⟨?_, ?_, ?_⟩
  · intro hinvalid
    unfold getMaxSwapInAmount
    rw [if_pos hinvalid]
  · intro hmint hpos
    subst hmint
    constructor
    · unfold maxOutAfterFloor
      split_ifs with h
      · omega
      · have hle := Nat.min_le_left info.tokenBAmount acc.vaultBReserve
        omega
    · have hBA : ¬(p.tokenBMint = p.tokenAMint) := fun h => hAB h.symm
      simp only [getMaxSwapInAmount, getMaxSwapOutAmount, calculateMaxSwapOutAmount,
        maxOutAfterFloor, maxInAfterFees, calculateAdminTradingFee, calculateTradingFee]
      simp [hBA, bnDiv_eq_ok, hod, htd]
      split_ifs with h
      · rw [Nat.min_eq_left h]
      · rfl
  · intro hmint hpos
    subst hmint
    constructor
    · unfold maxOutAfterFloor
      split_ifs with h
      · omega
      · have hle := Nat.min_le_left info.tokenAAmount acc.vaultAReserve
        omega
    · have hBA : ¬(p.tokenBMint = p.tokenAMint) := fun h => hAB h.symm
      simp only [getMaxSwapInAmount, getMaxSwapOutAmount, calculateMaxSwapOutAmount,
        maxOutAfterFloor, maxInAfterFees, calculateAdminTradingFee, calculateTradingFee]
      simp [hBA, bnDiv_eq_ok, hod, htd]
      split_ifs with h
      · rw [Nat.min_eq_left h]
      · rfl

/-- C7 witness: the theorem evaluated on the sample pool, swapping in the
token-A mint; the cap 100 equals the destination amount, so one unit is
left in the pool and the sample curve inverts 99 with zero sample fees. -/
theorem getMaxSwapInAmount_spec_witness :
    getMaxSwapInAmount cpPool livePoolAccounts samplePoolInfo sampleCtx 1 = .ok 99 := by
  have h := ((getMaxSwapInAmount_spec cpPool livePoolAccounts samplePoolInfo sampleCtx 1
    (by decide) (by decide) (by decide)).2.1 rfl (by decide)).2
  exact h.trans rfl

/-- The vault share-price round trip applied to a nominal withdraw output:
the vault shares to burn are `out * vaultLpSupply / vaultTotalAmount`, and
the real output is those shares times `vaultTotalAmount / vaultLpSupply`,
all in floor division. -/
def vaultShareRoundTrip (out vaultLpSupply vaultTotalAmount : Nat) : Nat :=
  out * vaultLpSupply / vaultTotalAmount * vaultTotalAmount / vaultLpSupply

/-- Helper: the share-price round trip never exceeds the nominal amount. -/
theorem vaultShareRoundTrip_le (out s t : Nat) (hs : s ≠ 0) :
    vaultShareRoundTrip out s t ≤ out := by
  unfold vaultShareRoundTrip
  have h1 : out * s / t * t ≤ out * s := Nat.div_mul_le_self (out * s) t
  calc out * s / t * t / s ≤ out * s / s := Nat.div_le_div_right h1
    _ = out := Nat.mul_div_cancel _ (Nat.pos_of_ne_zero hs)

/-- C8: for every single-sided withdraw quote against a mint of the pool's
pair whose destination vault has non-zero share supply and withdrawable
amount, the quoted output is the `computeWithdrawOne` nominal output
round-tripped through the vault share price — which never exceeds the
nominal output — and the quote assigns the whole output to the requested
token and zero to the other. -/
theorem getWithdrawQuote_single_sided (p : PoolConfig) (acc : AccountsInfo) (info : PoolInfo)
    (ctx : Ctx) (w slippage mint : Nat)
    (hAB : p.tokenAMint ≠ p.tokenBMint) :
    (mint = p.tokenAMint → acc.vaultALpSupply ≠ 0 → ctx.vaultAWithdrawableAmount ≠ 0 →
        getWithdrawQuote p acc info ctx w slippage (some mint)
            = .ok { poolTokenAmountIn := w
                    tokenAOutAmount := vaultShareRoundTrip
                      (ctx.curve.computeWithdrawOne w acc.poolLpSupply info.tokenAAmount
                        info.tokenBAmount p.fees TradeDirection.BToA)
                      acc.vaultALpSupply ctx.vaultAWithdrawableAmount
                    tokenBOutAmount := 0
                    minTokenAOutAmount := getMinAmountWithSlippage
                      (vaultShareRoundTrip
                        (ctx.curve.computeWithdrawOne w acc.poolLpSupply info.tokenAAmount
                          info.tokenBAmount p.fees TradeDirection.BToA)
                        acc.vaultALpSupply ctx.vaultAWithdrawableAmount) slippage
                    minTokenBOutAmount := 0 }
          ∧ vaultShareRoundTrip
              (ctx.curve.computeWithdrawOne w acc.poolLpSupply info.tokenAAmount
                info.tokenBAmount p.fees TradeDirection.BToA)
              acc.vaultALpSupply ctx.vaultAWithdrawableAmount
            ≤ ctx.curve.computeWithdrawOne w acc.poolLpSupply info.tokenAAmount
                info.tokenBAmount p.fees TradeDirection.BToA)
      ∧ (mint = p.tokenBMint → acc.vaultBLpSupply ≠ 0 → ctx.vaultBWithdrawableAmount ≠ 0 →
        getWithdrawQuote p acc info ctx w slippage (some mint)
            = .ok { poolTokenAmountIn := w
                    tokenAOutAmount := 0
                    tokenBOutAmount := vaultShareRoundTrip
                      (ctx.curve.computeWithdrawOne w acc.poolLpSupply info.tokenAAmount
                        info.tokenBAmount p.fees TradeDirection.AToB)
                      acc.vaultBLpSupply ctx.vaultBWithdrawableAmount
                    minTokenAOutAmount := 0
                    minTokenBOutAmount := getMinAmountWithSlippage
                      (vaultShareRoundTrip
                        (ctx.curve.computeWithdrawOne w acc.poolLpSupply info.tokenAAmount
                          info.tokenBAmount p.fees TradeDirection.AToB)
                        acc.vaultBLpSupply ctx.vaultBWithdrawableAmount) slippage }
          ∧ vaultShareRoundTrip
              (ctx.curve.computeWithdrawOne w acc.poolLpSupply info.tokenAAmount
                info.tokenBAmount p.fees TradeDirection.AToB)
              acc.vaultBLpSupply ctx.vaultBWithdrawableAmount
            ≤ ctx.curve.computeWithdrawOne w acc.poolLpSupply info.tokenAAmount
                info.tokenBAmount p.fees TradeDirection.AToB) := by
  constructor
  · intro hmint hS hT
    subst hmint
    refine ⟨?_, vaultShareRoundTrip_le _ _ _ hS⟩
    simp [getWithdrawQuote, hAB, bnDiv_eq_ok, hS, hT, vaultShareRoundTrip]
  · intro hmint hS hT
    subst hmint
    have hBA : ¬(p.tokenBMint = p.tokenAMint) := fun h => hAB h.symm
    refine ⟨?_, vaultShareRoundTrip_le _ _ _ hS⟩
    simp [getWithdrawQuote, hBA, bnDiv_eq_ok, hS, hT, vaultShareRoundTrip]

/-- C8 witness: the single-sided theorem evaluated on the sample pool for
token A at a withdraw amount of 50 — the round trip through a vault share
supply of 7 over a withdrawable amount of 1000 floors the output to 0. -/
theorem getWithdrawQuote_single_sided_witness :
    getWithdrawQuote cpPool livePoolAccounts samplePoolInfo sampleCtx 50 0 (some 1)
      = .ok { poolTokenAmountIn := 50, tokenAOutAmount := 0, tokenBOutAmount := 0
              minTokenAOutAmount := 0, minTokenBOutAmount := 0 } := by
  have h := (getWithdrawQuote_single_sided cpPool livePoolAccounts samplePoolInfo sampleCtx
    50 0 1 (by decide)).1 rfl (by decide) (by decide)
  exact h.1.trans rfl

end MercurialAmm
